import Mathlib

/-!
Verification of the Football_Backend repository against its natural-language
specification.  The Python pipeline (fetch league standings, persist them as
CSV, clean and summarize, query KPIs, route HTTP-style events) is shallowly
embedded below; machine-level effects (HTTP transport, S3/local files,
`datetime.now()`) are made explicit parameters or sum types.
-/

namespace FootballBackend

/-- Tracked statistic column names, from `utils/constants.py` (`STATS_COLUMNS`). -/
def STATS_COLUMNS : List String := ["won", "draw", "lost", "goalsFor", "goalsAgainst"]

/-! ## Standings fetcher (`step1_getcsv.py`, `get_league_standings`) -/

/-- One row of a standings block's `table` array, restricted to the JSON keys
that `get_league_standings` reads.  `none` models a missing key, which raises
`KeyError` in the source (`team`/`name` for the team name, the statistic key
for each statistic). -/
structure TeamRowJson where
  teamName : Option String
  won : Option Int
  draw : Option Int
  lost : Option Int
  goalsFor : Option Int
  goalsAgainst : Option Int
deriving DecidableEq

/-- One entry of the response's `standings` array.  A `none` field models the
corresponding JSON key (`type` or `table`) being absent. -/
structure Standing where
  type : Option String
  table : Option (List TeamRowJson)
deriving DecidableEq

/-- The decoded response body, restricted to the keys the fetcher reads:
`data['standings']`, `data['filters']['season']`, `data['season']['startDate']`
and `data['season']['endDate']`.  `none` models the key being absent. -/
structure ApiData where
  standings : Option (List Standing)
  filters_season : Option Int
  season_startDate : Option String
  season_endDate : Option String
deriving DecidableEq

/-- Outcome of `response.json()`: either a decode failure
(`json.JSONDecodeError`) or decoded data. -/
inductive Body where
  | undecodable
  | decoded (d : ApiData)
deriving DecidableEq

/-- Outcome of `requests.get`: a transport-level exception
(`requests.exceptions.RequestException`) or a response with a status code and
a body. -/
inductive FetchResult where
  | transportError
  | response (status : Nat) (body : Body)
deriving DecidableEq

/-- One flat output record of the fetcher: the dict built per team row. -/
structure Record where
  year : Int
  startDate : String
  endDate : String
  teamName : String
  won : Int
  draw : Int
  lost : Int
  goalsFor : Int
  goalsAgainst : Int
deriving DecidableEq

/-- Per-team extraction (the inner `try` of `get_league_standings`): builds the
flat record from `data['filters']['season']`, `data['season'][...]` and the
team row; any missing key raises `KeyError`, caught by the inner handler,
modelled as `none` (the row is skipped). -/
def extractTeam (d : ApiData) (t : TeamRowJson) : Option Record :=
  match d.filters_season, d.season_startDate, d.season_endDate,
        t.teamName, t.won, t.draw, t.lost, t.goalsFor, t.goalsAgainst with
  | some y, some sd, some ed, some n, some w, some dr, some lo, some gf, some ga =>
      some ⟨y, sd, ed, n, w, dr, lo, gf, ga⟩
  | _, _, _, _, _, _, _, _, _ => none

/-- The `for standing in data['standings']` loop that searches for the first
block with `standing['type'] == 'TOTAL'`.  A standing with no `type` key
raises `KeyError` (modelled as `Except.error`), caught by the outer handler of
`get_league_standings`. -/
def findTotal : List Standing → Except Unit (Option Standing)
  | [] => Except.ok none
  | s :: rest =>
    match s.type with
    | none => Except.error ()
    | some t => if t = "TOTAL" then Except.ok (some s) else findTotal rest

/-- `get_league_standings` from `step1_getcsv.py`, as a function of the
transport outcome.  `none` is the Python `None` sentinel ("no data"); `some l`
is a returned list of records. -/
def get_league_standings : FetchResult → Option (List Record)
  | FetchResult.transportError => none
  | FetchResult.response status body =>
    if status = 200 then
      match body with
      | Body.undecodable => none
      | Body.decoded d =>
        match d.standings with
        | none => none
        | some ss =>
          match findTotal ss with
          | Except.error _ => none
          | Except.ok none => some []
          | Except.ok (some total) =>
            match total.table with
            | none => none
            | some rows => some (rows.filterMap (extractTeam d))
    else some []

/-- The accumulation loop of `main` in `step1_getcsv.py`: per-season results
are appended with `all_data.extend(season_data)` when the result
`is not None`, and skipped otherwise. -/
def accumulate : List (Option (List Record)) → List Record
  | [] => []
  | none :: rest => accumulate rest
  | some l :: rest => l ++ accumulate rest

/-! ## Incremental merge check (`step1_getcsv.py`, `judge_incremental`) -/

/-- The dedup key `df['year'].astype(str) + '_' + df['teamName']`. -/
def composite_key (year : Int) (teamName : String) : String :=
  toString year ++ "_" ++ teamName

/-- Outcome of reading the stored dataset inside `judge_incremental`: the file
or object does not exist, reading (or any later step) raises an exception
caught by the broad `except Exception` handler, or the stored rows are
obtained. -/
inductive StoredRead where
  | absent
  | unreadable
  | table (rows : List Record)
deriving DecidableEq

/-- `judge_incremental` from `step1_getcsv.py`: `true` means a save is needed.
Missing stored file returns `true`; any exception is caught and returns `true`
("save to be safe"); otherwise the rows of the new dataframe whose composite
key is not `isin` the stored keys are counted. -/
def judge_incremental (df : List Record) (stored : StoredRead) : Bool :=
  match stored with
  | StoredRead.absent => true
  | StoredRead.unreadable => true
  | StoredRead.table existing =>
    let existingKeys := existing.map fun r => composite_key r.year r.teamName
    let newRecords := df.filter fun r => !(existingKeys.contains (composite_key r.year r.teamName))
    decide (newRecords.length > 0)

/-! ## Claim theorems (fetch/store part) -/

/-- Helper: the "no new records" test of `judge_incremental` is equivalent to
every new key being a member of the stored key list. -/
lemma no_new_records_iff (df : List Record) (keys : List String) :
    (decide ((df.filter fun r => !(keys.contains (composite_key r.year r.teamName))).length > 0)
        = false)
      ↔ ∀ r ∈ df, composite_key r.year r.teamName ∈ keys := by
  simp [List.length_pos, List.filter_eq_nil_iff]

/-- Spec-side: every standing in the list has a `type` key whose value is not
`"TOTAL"` (so the search loop runs off the end). -/
def allNonTotal (ss : List Standing) : Prop :=
  ∀ s ∈ ss, ∃ t, s.type = some t ∧ t ≠ "TOTAL"

/-- Spec-side: a standing with a missing `type` key occurs before any
`"TOTAL"`-typed standing, so the search loop raises `KeyError`. -/
def typeKeyMissingBeforeTotal (ss : List Standing) : Prop :=
  ∃ pre st post, ss = pre ++ st :: post ∧ st.type = none ∧ allNonTotal pre

/-- Spec-side: `st` is the first `"TOTAL"`-typed standing of the list; every
standing before it has a non-`"TOTAL"` type. -/
def firstTotal (ss : List Standing) (st : Standing) : Prop :=
  ∃ pre post, ss = pre ++ st :: post ∧ st.type = some "TOTAL" ∧ allNonTotal pre

lemma allNonTotal_nil : allNonTotal [] := by simp [allNonTotal]

lemma allNonTotal_cons {s : Standing} {rest : List Standing} :
    allNonTotal (s :: rest) ↔ (∃ t, s.type = some t ∧ t ≠ "TOTAL") ∧ allNonTotal rest := by
  simp [allNonTotal]

lemma typeKeyMissingBeforeTotal_cons {s : Standing} {rest : List Standing} :
    typeKeyMissingBeforeTotal (s :: rest) ↔
      s.type = none ∨
      ((∃ t, s.type = some t ∧ t ≠ "TOTAL") ∧ typeKeyMissingBeforeTotal rest) := by
  constructor
  · rintro ⟨pre, st, post, heq, hty, hpre⟩
    cases pre with
    | nil =>
      simp only [List.nil_append, List.cons.injEq] at heq
      obtain ⟨h1, h2⟩ := heq
      subst h1
      exact Or.inl hty
    | cons a pre' =>
      simp only [List.cons_append, List.cons.injEq] at heq
      obtain ⟨h1, h2⟩ := heq
      subst h1
      rw [allNonTotal_cons] at hpre
      exact Or.inr ⟨hpre.1, ⟨pre', st, post, h2, hty, hpre.2⟩⟩
  · rintro (h | ⟨hs, ⟨pre, st, post, heq, hty, hpre⟩⟩)
    · exact ⟨[], s, rest, rfl, h, allNonTotal_nil⟩
    · exact ⟨s :: pre, st, post, by simp [heq], hty,
        (allNonTotal_cons).mpr ⟨hs, hpre⟩⟩

lemma firstTotal_cons {s st : Standing} {rest : List Standing} :
    firstTotal (s :: rest) st ↔
      (s = st ∧ s.type = some "TOTAL") ∨
      ((∃ t, s.type = some t ∧ t ≠ "TOTAL") ∧ firstTotal rest st) := by
  constructor
  · rintro ⟨pre, post, heq, hty, hpre⟩
    cases pre with
    | nil =>
      simp only [List.nil_append, List.cons.injEq] at heq
      obtain ⟨h1, h2⟩ := heq
      subst h1
      exact Or.inl ⟨rfl, hty⟩
    | cons a pre' =>
      simp only [List.cons_append, List.cons.injEq] at heq
      obtain ⟨h1, h2⟩ := heq
      subst h1
      rw [allNonTotal_cons] at hpre
      exact Or.inr ⟨hpre.1, ⟨pre', post, h2, hty, hpre.2⟩⟩
  · rintro (⟨h1, h2⟩ | ⟨hs, ⟨pre, post, heq, hty, hpre⟩⟩)
    · subst h1
      exact ⟨[], rest, rfl, h2, allNonTotal_nil⟩
    · exact ⟨s :: pre, post, by simp [heq], hty, (allNonTotal_cons).mpr ⟨hs, hpre⟩⟩

lemma findTotal_error_iff (ss : List Standing) :
    findTotal ss = Except.error () ↔ typeKeyMissingBeforeTotal ss := by
  induction ss with
  | nil =>
    constructor
    · intro h; simp [findTotal] at h
    · rintro ⟨pre, st, post, heq, -, -⟩
      cases pre <;> simp at heq
  | cons s rest ih =>
    rw [typeKeyMissingBeforeTotal_cons]
    cases hty : s.type with
    | none => simp [findTotal, hty]
    | some t =>
      by_cases ht : t = "TOTAL"
      · subst ht
        simp [findTotal, hty]
      · simp [findTotal, hty, ht, ih]

lemma findTotal_ok_none_iff (ss : List Standing) :
    findTotal ss = Except.ok none ↔ allNonTotal ss := by
  induction ss with
  | nil => simp [findTotal, allNonTotal]
  | cons s rest ih =>
    rw [allNonTotal_cons]
    cases hty : s.type with
    | none => simp [findTotal, hty]
    | some t =>
      by_cases ht : t = "TOTAL"
      · subst ht
        simp [findTotal, hty]
      · simp [findTotal, hty, ht, ih]

lemma findTotal_ok_some_iff (ss : List Standing) (st : Standing) :
    findTotal ss = Except.ok (some st) ↔ firstTotal ss st := by
  induction ss with
  | nil =>
    constructor
    · intro h; simp [findTotal] at h
    · rintro ⟨pre, post, heq, -, -⟩
      cases pre <;> simp at heq
  | cons s rest ih =>
    rw [firstTotal_cons]
    cases hty : s.type with
    | none => simp [findTotal, hty]
    | some t =>
      by_cases ht : t = "TOTAL"
      · subst ht
        simp [findTotal, hty, eq_comm]
      · simp [findTotal, hty, ht, ih]

/-- C1: `judge_incremental` returns `false` iff the stored dataset was read and
every incoming record's dedup key (decimal year string, `"_"`, team name)
already occurs among the stored records' keys; it returns `true` whenever the
stored dataset is absent or cannot be read (any exception while reading or
comparing). -/
theorem judge_incremental_correct (df : List Record) (stored : StoredRead) :
    (judge_incremental df stored = false ↔
      ∃ existing, stored = StoredRead.table existing ∧
        ∀ r ∈ df, composite_key r.year r.teamName ∈
          existing.map fun e => composite_key e.year e.teamName) ∧
    judge_incremental df StoredRead.absent = true ∧
    judge_incremental df StoredRead.unreadable = true := by
  refine ⟨?_, rfl, rfl⟩
  cases stored with
  | absent => simp [judge_incremental]
  | unreadable => simp [judge_incremental]
  | table existing =>
    constructor
    · intro h
      refine ⟨existing, rfl, ?_⟩
      exact (no_new_records_iff df _).mp h
    · rintro ⟨ex, heq, hall⟩
      injection heq with heq2
      subst heq2
      exact (no_new_records_iff df _).mpr hall

/-- Helper: the per-team extraction succeeds exactly when every accessed key is
present, the produced record copies each source field verbatim, and it fails
(row skipped) exactly when some accessed key is missing. -/
lemma extractTeam_cases (d : ApiData) (t : TeamRowJson) :
    (∀ rec, extractTeam d t = some rec →
      d.filters_season = some rec.year ∧ d.season_startDate = some rec.startDate ∧
      d.season_endDate = some rec.endDate ∧ t.teamName = some rec.teamName ∧
      t.won = some rec.won ∧ t.draw = some rec.draw ∧ t.lost = some rec.lost ∧
      t.goalsFor = some rec.goalsFor ∧ t.goalsAgainst = some rec.goalsAgainst) ∧
    (extractTeam d t = none ↔
      (d.filters_season = none ∨ d.season_startDate = none ∨ d.season_endDate = none ∨
       t.teamName = none ∨ t.won = none ∨ t.draw = none ∨ t.lost = none ∨
       t.goalsFor = none ∨ t.goalsAgainst = none)) := by
  cases h1 : d.filters_season with
  | none => simp [extractTeam, h1]
  | some y =>
  cases h2 : d.season_startDate with
  | none => simp [extractTeam, h1, h2]
  | some sd =>
  cases h3 : d.season_endDate with
  | none => simp [extractTeam, h1, h2, h3]
  | some ed =>
  cases h4 : t.teamName with
  | none => simp [extractTeam, h1, h2, h3, h4]
  | some n =>
  cases h5 : t.won with
  | none => simp [extractTeam, h1, h2, h3, h4, h5]
  | some w =>
  cases h6 : t.draw with
  | none => simp [extractTeam, h1, h2, h3, h4, h5, h6]
  | some dr =>
  cases h7 : t.lost with
  | none => simp [extractTeam, h1, h2, h3, h4, h5, h6, h7]
  | some lo =>
  cases h8 : t.goalsFor with
  | none => simp [extractTeam, h1, h2, h3, h4, h5, h6, h7, h8]
  | some gf =>
  cases h9 : t.goalsAgainst with
  | none => simp [extractTeam, h1, h2, h3, h4, h5, h6, h7, h8, h9]
  | some ga =>
    constructor
    · intro rec hrec
      simp only [extractTeam, h1, h2, h3, h4, h5, h6, h7, h8, h9,
        Option.some.injEq] at hrec
      subst hrec
      exact ⟨rfl, rfl, rfl, rfl, rfl, rfl, rfl, rfl, rfl⟩
    · simp [extractTeam, h1, h2, h3, h4, h5, h6, h7, h8, h9]

/-- Spec-side (amended C4): the situations in which `get_league_standings`
yields the `None` sentinel. -/
def sentinelCases (r : FetchResult) : Prop :=
  r = FetchResult.transportError ∨
  r = FetchResult.response 200 Body.undecodable ∨
  ∃ d, r = FetchResult.response 200 (Body.decoded d) ∧
    (d.standings = none ∨
     ∃ ss, d.standings = some ss ∧
       (typeKeyMissingBeforeTotal ss ∨ ∃ st, firstTotal ss st ∧ st.table = none))

/-- C4 (amended): `get_league_standings` returns the `None` sentinel exactly
when the transport raises, the body fails to decode, or a `KeyError` occurs
outside the per-team extraction (missing `standings` key, a standing with no
`type` key before the first `TOTAL`, or a `TOTAL` block with no `table` key);
it returns the empty list when the HTTP status is not 200 and when no
`TOTAL`-typed block exists; and the caller skips a sentinel season in
accumulation without raising. -/
theorem get_league_standings_amended (r : FetchResult) :
    (get_league_standings r = none ↔ sentinelCases r) ∧
    (∀ s b, s ≠ 200 → get_league_standings (FetchResult.response s b) = some []) ∧
    (∀ d ss, d.standings = some ss → allNonTotal ss →
      get_league_standings (FetchResult.response 200 (Body.decoded d)) = some []) ∧
    (∀ pre post, accumulate (pre ++ none :: post) = accumulate (pre ++ post)) := by
  refine ⟨?_, ?_, ?_, ?_⟩
  · cases r with
    | transportError => simp [get_league_standings, sentinelCases]
    | response s b =>
      by_cases hs : s = 200
      · subst hs
        cases b with
        | undecodable => simp [get_league_standings, sentinelCases]
        | decoded d =>
          have hred : sentinelCases (FetchResult.response 200 (Body.decoded d)) ↔
              (d.standings = none ∨
               ∃ ss, d.standings = some ss ∧
                 (typeKeyMissingBeforeTotal ss ∨
                  ∃ st, firstTotal ss st ∧ st.table = none)) := by
            simp [sentinelCases]
          rw [hred]
          cases hst : d.standings with
          | none => simp [get_league_standings, hst]
          | some ss =>
            cases hft : findTotal ss with
            | error u =>
              cases u
              simp only [get_league_standings, hst, hft]
              simp [(findTotal_error_iff ss).mp hft]
            | ok o =>
              cases o with
              | none =>
                simp only [get_league_standings, hst, hft]
                constructor
                · intro h; simp at h
                · rintro (h | ⟨ss', hss', hcase⟩)
                  · simp at h
                  · injection hss' with h2
                    subst h2
                    rcases hcase with h | ⟨st, hfirst, -⟩
                    · rw [← findTotal_error_iff] at h
                      rw [hft] at h
                      simp at h
                    · rw [← findTotal_ok_some_iff] at hfirst
                      rw [hft] at hfirst
                      simp at hfirst
              | some total =>
                cases htab : total.table with
                | none =>
                  refine iff_of_true (by simp [get_league_standings, hst, hft, htab]) ?_
                  exact Or.inr ⟨ss, rfl,
                    Or.inr ⟨total, (findTotal_ok_some_iff ss total).mp hft, htab⟩⟩
                | some rows =>
                  simp only [get_league_standings, hst, hft, htab]
                  constructor
                  · intro h; simp at h
                  · rintro (h | ⟨ss', hss', hcase⟩)
                    · simp at h
                    · injection hss' with h2
                      subst h2
                      rcases hcase with h | ⟨st, hfirst, htab'⟩
                      · rw [← findTotal_error_iff] at h
                        rw [hft] at h
                        simp at h
                      · rw [← findTotal_ok_some_iff] at hfirst
                        rw [hft] at hfirst
                        simp only [Except.ok.injEq, Option.some.injEq] at hfirst
                        subst hfirst
                        rw [htab] at htab'
                        simp at htab'
      · simp only [get_league_standings, if_neg hs]
        constructor
        · intro h; simp at h
        · rintro (h | h | ⟨d, hd, -⟩)
          · simp at h
          · injection h with h1 h2
            exact absurd h1 hs
          · injection hd with h1 h2
            exact absurd h1 hs
  · intro s b hs
    simp [get_league_standings, hs]
  · intro d ss h1 h2
    simp [get_league_standings, h1, (findTotal_ok_none_iff ss).mpr h2]
  · intro pre post
    induction pre with
    | nil => rfl
    | cons a pre' ih => cases a <;> simp [accumulate, ih]

/-- Closed witness for the amended C4 theorem at concrete inputs. -/
theorem get_league_standings_amended_witness :
    (404 ≠ 200) ∧ get_league_standings (FetchResult.response 404 Body.undecodable) = some [] :=
  ⟨by decide,
   (get_league_standings_amended FetchResult.transportError).2.1 404 Body.undecodable (by decide)⟩

/-- Complete team row used by concrete instances below. -/
def goodRow : TeamRowJson := ⟨some "Arsenal FC", some 20, some 5, some 3, some 60, some 25⟩

/-- Team row with a missing `won` key, used by concrete instances below. -/
def badRow : TeamRowJson := ⟨some "Chelsea FC", none, some 5, some 3, some 60, some 25⟩

/-- Season response with a `TOTAL` block holding one complete team row, but
with the top-level `filters` key missing. -/
def apiDataNoFilters : ApiData :=
  ⟨some [⟨some "TOTAL", some [goodRow]⟩], none, some "2023-08-11", some "2024-05-19"⟩

/-- C4 counterexample: a top-level expected key (`filters`) is missing from the
decoded body, yet `get_league_standings` returns the empty list (every team
row is skipped by the per-team `KeyError` handler), not the `None` sentinel
that the claim requires; and since this input has HTTP status 200 and a
`TOTAL` block with a non-empty table, the claim's "empty list exactly when
non-200 or no TOTAL block" fails on it as well. -/
theorem get_league_standings_counterexample :
    apiDataNoFilters.filters_season = none ∧
    get_league_standings (FetchResult.response 200 (Body.decoded apiDataNoFilters)) = some [] :=
  ⟨rfl, by decide⟩

/-- C9: for a decoded response whose standings contain a first `TOTAL` block
with a table, each team row missing an accessed key is skipped individually
while the remaining rows are still returned in order, and every returned
record's team name and tracked statistics are exactly the source fields. -/
theorem per_team_extraction (d : ApiData) (pre post : List Standing)
    (total : Standing) (rows : List TeamRowJson)
    (hstand : d.standings = some (pre ++ total :: post))
    (hpre : allNonTotal pre)
    (htot : total.type = some "TOTAL")
    (htab : total.table = some rows) :
    get_league_standings (FetchResult.response 200 (Body.decoded d)) =
      some (rows.filterMap (extractTeam d)) ∧
    (∀ t ∈ rows, ∀ rec, extractTeam d t = some rec →
      t.teamName = some rec.teamName ∧ t.won = some rec.won ∧ t.draw = some rec.draw ∧
      t.lost = some rec.lost ∧ t.goalsFor = some rec.goalsFor ∧
      t.goalsAgainst = some rec.goalsAgainst) ∧
    (∀ t ∈ rows, extractTeam d t = none ↔
      (d.filters_season = none ∨ d.season_startDate = none ∨ d.season_endDate = none ∨
       t.teamName = none ∨ t.won = none ∨ t.draw = none ∨ t.lost = none ∨
       t.goalsFor = none ∨ t.goalsAgainst = none)) := by
  have hft : findTotal (pre ++ total :: post) = Except.ok (some total) :=
    (findTotal_ok_some_iff _ total).mpr ⟨pre, post, rfl, htot, hpre⟩
  refine ⟨by simp [get_league_standings, hstand, hft, htab], ?_, ?_⟩
  · intro t _ rec hrec
    have h := (extractTeam_cases d t).1 rec hrec
    exact ⟨h.2.2.2.1, h.2.2.2.2.1, h.2.2.2.2.2.1, h.2.2.2.2.2.2.1,
      h.2.2.2.2.2.2.2.1, h.2.2.2.2.2.2.2.2⟩
  · intro t _
    exact (extractTeam_cases d t).2

/-- Closed witness for the C9 theorem: a season with one non-`TOTAL` block, a
`TOTAL` table holding one complete and one incomplete row; only the complete
row's record is returned, with its fields copied verbatim. -/
theorem per_team_extraction_witness :
    (⟨some [⟨some "HOME", some []⟩, ⟨some "TOTAL", some [goodRow, badRow]⟩],
      some 2023, some "2023-08-11", some "2024-05-19"⟩ : ApiData).standings =
        some ([⟨some "HOME", some []⟩] ++
          (⟨some "TOTAL", some [goodRow, badRow]⟩ : Standing) :: []) ∧
    get_league_standings (FetchResult.response 200 (Body.decoded
        ⟨some [⟨some "HOME", some []⟩, ⟨some "TOTAL", some [goodRow, badRow]⟩],
         some 2023, some "2023-08-11", some "2024-05-19"⟩)) =
      some [⟨2023, "2023-08-11", "2024-05-19", "Arsenal FC", 20, 5, 3, 60, 25⟩] := by
  have hpre : allNonTotal [⟨some "HOME", some []⟩] := by
    intro s hs
    simp only [List.mem_singleton] at hs
    subst hs
    exact ⟨"HOME", rfl, by decide⟩
  have h := (per_team_extraction
      ⟨some [⟨some "HOME", some []⟩, ⟨some "TOTAL", some [goodRow, badRow]⟩],
       some 2023, some "2023-08-11", some "2024-05-19"⟩
      [⟨some "HOME", some []⟩] []
      ⟨some "TOTAL", some [goodRow, badRow]⟩ [goodRow, badRow]
      rfl hpre rfl rfl).1
  refine ⟨rfl, ?_⟩
  rw [h]
  decide

/-! ## Data validator/cleaner (`step2_summarize.py`) -/

/-- Pandas column dtypes distinguished by `validate_years` (`df['year'].dtype
in ['int64', 'int32']`). -/
inductive Dtype where
  | int64
  | int32
  | float64
  | object
deriving DecidableEq

/-- The in-memory dataframe of `step2_summarize.py`, restricted to the columns
the validator/cleaner touches.  `yearDtype` is the pandas dtype of the `year`
column; the year values are consulted only when that dtype is integral, so
they are carried as integers.  Statistic cells are `Option ℚ`, with `none`
modelling a missing value (`NaN`). -/
structure DataFrame where
  yearDtype : Dtype
  year : List Int
  startDate : List String
  endDate : List String
  teamName : List String
  won : List (Option ℚ)
  draw : List (Option ℚ)
  lost : List (Option ℚ)
  goalsFor : List (Option ℚ)
  goalsAgainst : List (Option ℚ)
deriving DecidableEq

/-- `sorted(df['year'].unique())`: the distinct year values in increasing
order. -/
def sortedDistinct (l : List Int) : List Int :=
  List.insertionSort (· ≤ ·) l.dedup

/-- `list(range(lo, hi + 1))` over integers. -/
def intRangeList (lo hi : Int) : List Int :=
  (List.range (hi + 1 - lo).toNat).map fun i : Nat => lo + (i : Int)

/-- `validate_years` from `step2_summarize.py`.  `currentYear` stands for
`datetime.now().year`.  Python's `min`/`max` over the list of distinct years
are folds; calling them on an empty sequence raises `ValueError`, caught by
the broad handler (the `[]` arm). -/
def validate_years (currentYear : Int) (df : DataFrame) : Bool × String :=
  if ¬(df.yearDtype = Dtype.int64 ∨ df.yearDtype = Dtype.int32) then
    (false, "Year format wrong: It should be int.")
  else
    match sortedDistinct df.year with
    | [] => (false, "Year validation error：min() arg is an empty sequence")
    | y :: ys =>
      let mn := ys.foldl min y
      let mx := ys.foldl max y
      if mn < 1992 then
        (false, "! Year out of range: year " ++ toString mn ++
          " earlier than the start of the Premier League 1992")
      else if mx > currentYear then
        (false, "! Year out of range: newest year " ++ toString mx ++
          " late than now " ++ toString currentYear)
      else if (y :: ys).length > 1 ∧ y :: ys ≠ intRangeList mn mx then
        (false, "Years are not consecutive: Years found " ++ toString (y :: ys) ++
          "，Expected consecutive years " ++ toString (intRangeList mn mx))
      else
        (true, "Year verification passed：" ++ toString (y :: ys))

lemma foldl_min_lt_iff (ys : List Int) (y c : Int) :
    ys.foldl min y < c ↔ y < c ∨ ∃ z ∈ ys, z < c := by
  induction ys generalizing y with
  | nil => simp
  | cons a t ih =>
    rw [List.foldl_cons, ih, min_lt_iff]
    constructor
    · rintro ((h | h) | ⟨z, hz, hzc⟩)
      · exact Or.inl h
      · exact Or.inr ⟨a, List.mem_cons_self a t, h⟩
      · exact Or.inr ⟨z, List.mem_cons_of_mem a hz, hzc⟩
    · rintro (h | ⟨z, hz, hzc⟩)
      · exact Or.inl (Or.inl h)
      · rcases List.mem_cons.mp hz with rfl | hz'
        · exact Or.inl (Or.inr hzc)
        · exact Or.inr ⟨z, hz', hzc⟩

lemma lt_foldl_max_iff (ys : List Int) (y c : Int) :
    c < ys.foldl max y ↔ c < y ∨ ∃ z ∈ ys, c < z := by
  induction ys generalizing y with
  | nil => simp
  | cons a t ih =>
    rw [List.foldl_cons, ih, lt_max_iff]
    constructor
    · rintro ((h | h) | ⟨z, hz, hzc⟩)
      · exact Or.inl h
      · exact Or.inr ⟨a, List.mem_cons_self a t, h⟩
      · exact Or.inr ⟨z, List.mem_cons_of_mem a hz, hzc⟩
    · rintro (h | ⟨z, hz, hzc⟩)
      · exact Or.inl (Or.inl h)
      · rcases List.mem_cons.mp hz with rfl | hz'
        · exact Or.inl (Or.inr hzc)
        · exact Or.inr ⟨z, hz', hzc⟩

lemma foldl_min_le (ys : List Int) (y : Int) : ∀ z ∈ y :: ys, ys.foldl min y ≤ z := by
  induction ys generalizing y with
  | nil =>
    intro z hz
    rcases List.mem_cons.mp hz with rfl | h
    · exact le_refl z
    · simp at h
  | cons a t ih =>
    intro z hz
    rw [List.foldl_cons]
    have hbase := ih (min y a) (min y a) (List.mem_cons_self _ _)
    rcases List.mem_cons.mp hz with rfl | hz'
    · exact le_trans hbase (min_le_left _ _)
    · rcases List.mem_cons.mp hz' with rfl | hz''
      · exact le_trans hbase (min_le_right _ _)
      · exact ih (min y a) z (List.mem_cons_of_mem _ hz'')

lemma le_foldl_max (ys : List Int) (y : Int) : ∀ z ∈ y :: ys, z ≤ ys.foldl max y := by
  induction ys generalizing y with
  | nil =>
    intro z hz
    rcases List.mem_cons.mp hz with rfl | h
    · exact le_refl z
    · simp at h
  | cons a t ih =>
    intro z hz
    rw [List.foldl_cons]
    have hbase := ih (max y a) (max y a) (List.mem_cons_self _ _)
    rcases List.mem_cons.mp hz with rfl | hz'
    · exact le_trans (le_max_left _ _) hbase
    · rcases List.mem_cons.mp hz' with rfl | hz''
      · exact le_trans (le_max_right _ _) hbase
      · exact ih (max y a) z (List.mem_cons_of_mem _ hz'')

lemma foldl_min_mem (ys : List Int) (y : Int) : ys.foldl min y ∈ y :: ys := by
  induction ys generalizing y with
  | nil => simp
  | cons a t ih =>
    rw [List.foldl_cons]
    rcases List.mem_cons.mp (ih (min y a)) with h | h
    · rcases min_choice y a with h2 | h2 <;> rw [h, h2]
      · exact List.mem_cons_self _ _
      · exact List.mem_cons_of_mem _ (List.mem_cons_self _ _)
    · exact List.mem_cons_of_mem _ (List.mem_cons_of_mem _ h)

lemma foldl_max_mem (ys : List Int) (y : Int) : ys.foldl max y ∈ y :: ys := by
  induction ys generalizing y with
  | nil => simp
  | cons a t ih =>
    rw [List.foldl_cons]
    rcases List.mem_cons.mp (ih (max y a)) with h | h
    · rcases max_choice y a with h2 | h2 <;> rw [h, h2]
      · exact List.mem_cons_self _ _
      · exact List.mem_cons_of_mem _ (List.mem_cons_self _ _)
    · exact List.mem_cons_of_mem _ (List.mem_cons_of_mem _ h)

lemma mem_sortedDistinct {l : List Int} {z : Int} : z ∈ sortedDistinct l ↔ z ∈ l := by
  rw [sortedDistinct, List.mem_insertionSort, List.mem_dedup]

lemma sortedDistinct_sorted (l : List Int) :
    List.Sorted (· ≤ ·) (sortedDistinct l) :=
  List.sorted_insertionSort _ _

lemma sortedDistinct_nodup (l : List Int) : (sortedDistinct l).Nodup :=
  ((List.perm_insertionSort _ _).nodup_iff).mpr (List.nodup_dedup l)

lemma mem_intRangeList {lo hi c : Int} : c ∈ intRangeList lo hi ↔ lo ≤ c ∧ c ≤ hi := by
  simp only [intRangeList, List.mem_map, List.mem_range]
  constructor
  · rintro ⟨i, hi2, rfl⟩
    omega
  · rintro ⟨h1, h2⟩
    exact ⟨(c - lo).toNat, by omega, by omega⟩

lemma intRangeList_sorted (lo hi : Int) : List.Sorted (· ≤ ·) (intRangeList lo hi) := by
  rw [intRangeList, List.Sorted, List.pairwise_map]
  exact (List.pairwise_lt_range _).imp fun h => by omega

lemma intRangeList_nodup (lo hi : Int) : (intRangeList lo hi).Nodup := by
  rw [intRangeList]
  exact (List.nodup_range _).map fun a b h => by omega

lemma intRangeList_self (y : Int) : intRangeList y y = [y] := by
  rw [intRangeList, show y + 1 - y = (1 : Int) by ring]
  simp [List.range_succ]

lemma eq_of_sorted_nodup_mem_eq {l1 l2 : List Int}
    (s1 : List.Sorted (· ≤ ·) l1) (s2 : List.Sorted (· ≤ ·) l2)
    (n1 : l1.Nodup) (n2 : l2.Nodup)
    (hmem : ∀ z, z ∈ l1 ↔ z ∈ l2) : l1 = l2 := by
  refine List.eq_of_perm_of_sorted ?_ s1 s2
  refine List.perm_of_nodup_nodup_toFinset_eq n1 n2 ?_
  ext z
  simp [hmem z]

/-- Helper: the distinct sorted years equal the full integer range from their
minimum to their maximum iff the underlying set of years is contiguous (every
integer lying between two members is itself a member). -/
lemma years_eq_range_iff_contiguous (l : List Int) (y : Int) (ys : List Int)
    (h : sortedDistinct l = y :: ys) :
    y :: ys = intRangeList (ys.foldl min y) (ys.foldl max y) ↔
      ∀ a ∈ l, ∀ b ∈ l, ∀ c : Int, a ≤ c → c ≤ b → c ∈ l := by
  have hmem : ∀ z : Int, z ∈ y :: ys ↔ z ∈ l := by
    intro z
    rw [← h]
    exact mem_sortedDistinct
  have hsorted : List.Sorted (· ≤ ·) (y :: ys) := h ▸ sortedDistinct_sorted l
  have hnodup : (y :: ys).Nodup := h ▸ sortedDistinct_nodup l
  constructor
  · intro heq a ha b hb c hac hcb
    have hmina : ys.foldl min y ≤ a := foldl_min_le ys y a ((hmem a).mpr ha)
    have hbmax : b ≤ ys.foldl max y := le_foldl_max ys y b ((hmem b).mpr hb)
    have hc : c ∈ intRangeList (ys.foldl min y) (ys.foldl max y) :=
      mem_intRangeList.mpr ⟨le_trans hmina hac, le_trans hcb hbmax⟩
    rw [← heq] at hc
    exact (hmem c).mp hc
  · intro hcont
    refine eq_of_sorted_nodup_mem_eq hsorted (intRangeList_sorted _ _) hnodup
      (intRangeList_nodup _ _) ?_
    intro z
    rw [mem_intRangeList]
    constructor
    · intro hz
      exact ⟨foldl_min_le ys y z hz, le_foldl_max ys y z hz⟩
    · rintro ⟨h1, h2⟩
      have := hcont _ ((hmem _).mp (foldl_min_mem ys y)) _
        ((hmem _).mp (foldl_max_mem ys y)) z h1 h2
      exact (hmem z).mpr this

/-- C3: on a dataset with a non-empty year column, `validate_years` succeeds
iff the year column's dtype is integral and every year lies in
`[1992, currentYear]` and the set of years is contiguous; on success the
message lists the sorted distinct years. -/
theorem validate_years_correct (currentYear : Int) (df : DataFrame)
    (hne : df.year ≠ []) :
    ((validate_years currentYear df).1 = true ↔
      ((df.yearDtype = Dtype.int64 ∨ df.yearDtype = Dtype.int32) ∧
       (∀ y ∈ df.year, 1992 ≤ y ∧ y ≤ currentYear) ∧
       (∀ a ∈ df.year, ∀ b ∈ df.year, ∀ c : Int, a ≤ c → c ≤ b → c ∈ df.year))) ∧
    ((validate_years currentYear df).1 = true →
      (validate_years currentYear df).2 =
        "Year verification passed：" ++ toString (sortedDistinct df.year)) := by
  obtain ⟨y0, hy0⟩ := List.exists_mem_of_ne_nil df.year hne
  by_cases hdt : df.yearDtype = Dtype.int64 ∨ df.yearDtype = Dtype.int32
  case neg =>
    have hval : validate_years currentYear df =
        (false, "Year format wrong: It should be int.") := by
      rw [validate_years, if_pos hdt]
    rw [hval]
    constructor
    · simp [hdt]
    · intro h
      simp at h
  case pos =>
    cases hyears : sortedDistinct df.year with
    | nil =>
      exfalso
      have hmm : y0 ∈ sortedDistinct df.year := mem_sortedDistinct.mpr hy0
      rw [hyears] at hmm
      simp at hmm
    | cons y ys =>
      have hmem : ∀ z : Int, z ∈ y :: ys ↔ z ∈ df.year := by
        intro z
        rw [← hyears]
        exact mem_sortedDistinct
      have hunfold : validate_years currentYear df =
          (if ys.foldl min y < 1992 then
            (false, "! Year out of range: year " ++ toString (ys.foldl min y) ++
              " earlier than the start of the Premier League 1992")
          else if ys.foldl max y > currentYear then
            (false, "! Year out of range: newest year " ++ toString (ys.foldl max y) ++
              " late than now " ++ toString currentYear)
          else if (y :: ys).length > 1 ∧
              y :: ys ≠ intRangeList (ys.foldl min y) (ys.foldl max y) then
            (false, "Years are not consecutive: Years found " ++ toString (y :: ys) ++
              "，Expected consecutive years " ++
              toString (intRangeList (ys.foldl min y) (ys.foldl max y)))
          else
            (true, "Year verification passed：" ++ toString (y :: ys))) := by
        simp only [validate_years]
        rw [if_neg (not_not_intro hdt), hyears]
      rw [hunfold]
      by_cases hmn : ys.foldl min y < 1992
      · rw [if_pos hmn]
        constructor
        · constructor
          · intro h
            simp at h
          · rintro ⟨-, hbound, -⟩
            exfalso
            have hmnmem : ys.foldl min y ∈ df.year := (hmem _).mp (foldl_min_mem ys y)
            have := (hbound _ hmnmem).1
            omega
        · intro h
          simp at h
      · rw [if_neg hmn]
        by_cases hmx : ys.foldl max y > currentYear
        · rw [if_pos hmx]
          constructor
          · constructor
            · intro h
              simp at h
            · rintro ⟨-, hbound, -⟩
              exfalso
              have hmxmem : ys.foldl max y ∈ df.year := (hmem _).mp (foldl_max_mem ys y)
              have := (hbound _ hmxmem).2
              omega
          · intro h
            simp at h
        · rw [if_neg hmx]
          by_cases hrng : (y :: ys).length > 1 ∧
              y :: ys ≠ intRangeList (ys.foldl min y) (ys.foldl max y)
          · rw [if_pos hrng]
            constructor
            · constructor
              · intro h
                simp at h
              · rintro ⟨-, -, hcont⟩
                exact (hrng.2
                  ((years_eq_range_iff_contiguous df.year y ys hyears).mpr hcont)).elim
            · intro h
              simp at h
          · rw [if_neg hrng]
            push_neg at hrng
            constructor
            · constructor
              · intro _
                refine ⟨hdt, ?_, ?_⟩
                · intro z hz
                  have hz' : z ∈ y :: ys := (hmem z).mpr hz
                  have h1 : ys.foldl min y ≤ z := foldl_min_le ys y z hz'
                  have h2 : z ≤ ys.foldl max y := le_foldl_max ys y z hz'
                  omega
                · by_cases hlen : (y :: ys).length > 1
                  · exact (years_eq_range_iff_contiguous df.year y ys hyears).mp (hrng hlen)
                  · have hys : ys = [] := by
                      cases ys with
                      | nil => rfl
                      | cons a t => simp at hlen
                    subst hys
                    intro a ha b hb c hac hcb
                    have ha' : a ∈ [y] := (hmem a).mpr ha
                    have hb' : b ∈ [y] := (hmem b).mpr hb
                    simp only [List.mem_singleton] at ha' hb'
                    rw [ha'] at hac
                    rw [hb'] at hcb
                    have hcy : c = y := le_antisymm hcb hac
                    rw [hcy]
                    exact (hmem y).mp (List.mem_cons_self _ _)
              · intro _
                rfl
            · intro _
              rfl

/-- Concrete dataframe used by witnesses: two contiguous in-range years, one
missing `won` cell. -/
def dfExample : DataFrame :=
  { yearDtype := Dtype.int64
    year := [2020, 2021]
    startDate := ["2020-09-12", "2020-09-12"]
    endDate := ["2021-05-23", "2021-05-23"]
    teamName := ["Arsenal FC", "Arsenal FC"]
    won := [some 15, none]
    draw := [some 5, some 4]
    lost := [some 8, some 6]
    goalsFor := [some 45, some 55]
    goalsAgainst := [some 35, some 25] }

/-- Closed witness for the C3 theorem at a concrete dataframe and year. -/
theorem validate_years_correct_witness :
    dfExample.year ≠ [] ∧
    ((validate_years 2025 dfExample).1 = true ↔
      ((dfExample.yearDtype = Dtype.int64 ∨ dfExample.yearDtype = Dtype.int32) ∧
       (∀ y ∈ dfExample.year, 1992 ≤ y ∧ y ≤ 2025) ∧
       (∀ a ∈ dfExample.year, ∀ b ∈ dfExample.year, ∀ c : Int,
         a ≤ c → c ≤ b → c ∈ dfExample.year))) :=
  ⟨by decide, (validate_years_correct 2025 dfExample (by decide)).1⟩

/-- Pandas `Series.median()` over a column with missing values: the median of
the present (non-`NaN`) entries — middle element of the sorted values for an
odd count, mean of the two middle elements for an even count — and `none`
(pandas `NaN`) when no entry is present. -/
def seriesMedian (l : List (Option ℚ)) : Option ℚ :=
  let vals := List.insertionSort (· ≤ ·) (l.filterMap id)
  match vals[(vals.length - 1) / 2]?, vals[vals.length / 2]? with
  | some a, some b => some ((a + b) / 2)
  | _, _ => none

/-- Pandas `Series.fillna(v)`: replaces each missing cell by `v`.  Filling
with `NaN` (here `none`, the median of an all-missing column) leaves the
column unchanged. -/
def fillna (l : List (Option ℚ)) (v : Option ℚ) : List (Option ℚ) :=
  match v with
  | none => l
  | some x => l.map fun c => some (c.getD x)

/-- `df[column].isnull()` summed: does the column contain a missing value. -/
def hasMissing (l : List (Option ℚ)) : Bool :=
  l.any fun v => v.isNone

/-- `clean_data` from `step2_summarize.py`: runs `validate_years` first and
returns `None` on failure; when some tracked statistic column has missing
values, copies the dataframe and fills exactly those columns with their
per-column median; otherwise returns the dataframe as is. -/
def clean_data (currentYear : Int) (df : DataFrame) : Option DataFrame :=
  if (validate_years currentYear df).1 = false then none
  else if hasMissing df.won || hasMissing df.draw || hasMissing df.lost ||
      hasMissing df.goalsFor || hasMissing df.goalsAgainst then
    some { df with
      won := if hasMissing df.won then fillna df.won (seriesMedian df.won) else df.won
      draw := if hasMissing df.draw then fillna df.draw (seriesMedian df.draw) else df.draw
      lost := if hasMissing df.lost then fillna df.lost (seriesMedian df.lost) else df.lost
      goalsFor := if hasMissing df.goalsFor then
          fillna df.goalsFor (seriesMedian df.goalsFor)
        else df.goalsFor
      goalsAgainst := if hasMissing df.goalsAgainst then
          fillna df.goalsAgainst (seriesMedian df.goalsAgainst)
        else df.goalsAgainst }
  else some df

/-- Spec-side column transform, following the spec's words: for a tracked
statistic column with at least one missing value, each missing value is
replaced by that column's median computed over the non-missing entries;
a column with no missing value is left untouched. -/
def fillMissingWithMedian (l : List (Option ℚ)) : List (Option ℚ) :=
  if l.any (fun v => v.isNone) then l.map fun v => v.or (seriesMedian l) else l

/-- Spec-side `clean_data`, following the spec's words (refinement reference):
run `validate_years` first, short-circuiting to absent on any failure;
otherwise fill each tracked statistic column per `fillMissingWithMedian` and
leave every other column untouched with its original values. -/
def clean_data_spec (currentYear : Int) (df : DataFrame) : Option DataFrame :=
  if (validate_years currentYear df).1 then
    some { df with
      won := fillMissingWithMedian df.won
      draw := fillMissingWithMedian df.draw
      lost := fillMissingWithMedian df.lost
      goalsFor := fillMissingWithMedian df.goalsFor
      goalsAgainst := fillMissingWithMedian df.goalsAgainst }
  else none

lemma fill_branch_eq (l : List (Option ℚ)) :
    (if hasMissing l then fillna l (seriesMedian l) else l) = fillMissingWithMedian l := by
  rw [fillMissingWithMedian, hasMissing]
  by_cases h : l.any fun v => v.isNone
  · rw [if_pos h, if_pos h]
    cases hm : seriesMedian l with
    | none =>
      simp [fillna, Option.or_none]
    | some x =>
      simp only [fillna]
      refine List.map_congr_left ?_
      intro v _
      cases v <;> rfl
  · rw [if_neg h, if_neg h]

lemma fillMissingWithMedian_of_no_missing (l : List (Option ℚ))
    (h : hasMissing l = false) : fillMissingWithMedian l = l := by
  rw [fillMissingWithMedian, if_neg]
  rw [hasMissing] at h
  simp [h]

/-- C2: `clean_data` implements the specified cleaning exactly: a
`validate_years` failure short-circuits to absent with no partial cleaning;
otherwise precisely the tracked statistic columns containing a missing value
get each missing cell replaced by that column's median over its non-missing
entries, every other column keeps its original values, and a dataframe with
no missing values at all is returned unchanged. -/
theorem clean_data_correct (currentYear : Int) (df : DataFrame) :
    clean_data currentYear df = clean_data_spec currentYear df := by
  rw [clean_data, clean_data_spec]
  by_cases hv : (validate_years currentYear df).1
  · rw [if_neg (by simp [hv]), if_pos hv]
    by_cases hmiss : (hasMissing df.won || hasMissing df.draw || hasMissing df.lost ||
        hasMissing df.goalsFor || hasMissing df.goalsAgainst) = true
    · rw [if_pos hmiss]
      simp only [fill_branch_eq]
    · rw [if_neg hmiss]
      simp only [Bool.or_eq_true, not_or, Bool.not_eq_true] at hmiss
      obtain ⟨⟨⟨⟨h1, h2⟩, h3⟩, h4⟩, h5⟩ := hmiss
      rw [fillMissingWithMedian_of_no_missing _ h1,
        fillMissingWithMedian_of_no_missing _ h2,
        fillMissingWithMedian_of_no_missing _ h3,
        fillMissingWithMedian_of_no_missing _ h4,
        fillMissingWithMedian_of_no_missing _ h5]
  · rw [if_pos (by simpa using hv), if_neg hv]

/-! ## KPI query (`step3_query_kpi_from_csv.py`) -/

/-- Tracked statistic selector; the query's `KPIName` must name one of the
statistic columns (an unknown name is a caller error raising `KeyError`,
outside this claim). -/
inductive StatCol where
  | won
  | draw
  | lost
  | goalsFor
  | goalsAgainst
deriving DecidableEq

/-- One row of the dataset as loaded for querying.  Statistic cells are
`Option ℚ`: the raw stored CSV may contain missing values, which the query
carries through untouched. -/
structure QRecord where
  year : Int
  teamName : String
  won : Option ℚ
  draw : Option ℚ
  lost : Option ℚ
  goalsFor : Option ℚ
  goalsAgainst : Option ℚ
deriving DecidableEq

/-- Column lookup `df[kpi_name]` on a loaded record. -/
def statGet (r : QRecord) : StatCol → Option ℚ
  | StatCol.won => r.won
  | StatCol.draw => r.draw
  | StatCol.lost => r.lost
  | StatCol.goalsFor => r.goalsFor
  | StatCol.goalsAgainst => r.goalsAgainst

/-- One output row of the query: the projection
`filtered_df[['year', 'teamName', kpi_name]]`. -/
structure ProjRow where
  year : Int
  teamName : String
  value : Option ℚ
deriving DecidableEq

/-- The filter/projection part of `main` in `step3_query_kpi_from_csv.py`:
the year-range mask, intersected with the team mask when
`team_name_list and len(team_name_list) > 0`, then the three-column
projection. -/
def query_kpi (df : List QRecord) (startYear endYear : Int)
    (teamNameList : List String) (kpiName : StatCol) : List ProjRow :=
  let yearFilter := fun r : QRecord =>
    decide (startYear ≤ r.year) && decide (r.year ≤ endYear)
  let filtered :=
    if teamNameList.length > 0 then
      df.filter fun r => yearFilter r && teamNameList.contains r.teamName
    else
      df.filter yearFilter
  filtered.map fun r => ⟨r.year, r.teamName, statGet r kpiName⟩

/-- Spec-side query, following the spec's words: keep exactly the rows with
`start_year ≤ year ≤ end_year`, restricted to the listed teams when the list
is non-empty and to all teams when it is empty, in the underlying dataset's
row order, each projected to exactly `year`, `teamName` and the requested
statistic. -/
def query_kpi_spec (df : List QRecord) (startYear endYear : Int)
    (teamNameList : List String) (kpiName : StatCol) : List ProjRow :=
  (df.filter fun r =>
      decide (startYear ≤ r.year) && decide (r.year ≤ endYear) &&
        (teamNameList.isEmpty || teamNameList.contains r.teamName)).map
    fun r => ⟨r.year, r.teamName, statGet r kpiName⟩

/-- C5: the query returns exactly the rows within the inclusive year bounds,
restricted to the listed teams when the team list is non-empty and to all
teams when it is empty, projected to exactly year, team name and the
requested statistic, in the underlying dataset's row order. -/
theorem query_kpi_correct (df : List QRecord) (startYear endYear : Int)
    (teamNameList : List String) (kpiName : StatCol) :
    query_kpi df startYear endYear teamNameList kpiName =
      query_kpi_spec df startYear endYear teamNameList kpiName := by
  rw [query_kpi, query_kpi_spec]
  cases teamNameList with
  | nil => simp
  | cons t ts => simp

/-! ## Dataset load (`step2_summarize.py`, `read_csv_data`) -/

/-- Stored content as seen by `read_csv_data`: the object may be missing
(`FileNotFoundError`/no such key), its bytes may fail UTF-8 decoding, the
text may fail CSV parsing (`pandas.errors.ParserError`), it may hold no data
to parse (`pandas.errors.EmptyDataError`), or it parses to a table of rows
(possibly zero of them, a header-only file). -/
inductive CsvContent where
  | missing
  | undecodable
  | malformed
  | emptyFile
  | table (rows : List QRecord)
deriving DecidableEq

/-- Result of `read_csv_data`: the call either returns a value (`None` or the
dataframe) or propagates an exception. -/
inductive LoadOutcome where
  | value (v : Option (List QRecord))
  | raises
deriving DecidableEq

/-- `read_csv_data` from `step2_summarize.py`: every failure — missing
location, decode error, parse error, empty content, empty parsed dataframe —
is caught by one of the `except` clauses (the broad `except Exception`
included) and reported as `None`; only a non-empty parsed table is
returned. -/
def read_csv_data : CsvContent → LoadOutcome
  | CsvContent.missing => LoadOutcome.value none
  | CsvContent.undecodable => LoadOutcome.value none
  | CsvContent.malformed => LoadOutcome.value none
  | CsvContent.emptyFile => LoadOutcome.value none
  | CsvContent.table rows =>
    if rows.isEmpty then LoadOutcome.value none else LoadOutcome.value (some rows)

/-- C7 counterexample: on content that cannot be decoded, `read_csv_data`
returns the absent value (`None`) instead of propagating the failure as the
claim requires; the claim's "absent only when the location does not exist"
fails at this input. -/
theorem read_csv_data_counterexample :
    read_csv_data CsvContent.undecodable = LoadOutcome.value none := rfl

/-- C7 (amended): the load never propagates — it returns a value for every
content; that value is absent (`None`) exactly on the failure inputs (missing
location, undecodable bytes, malformed structure, empty content, empty parsed
table), and a non-empty parsed table is returned as is. -/
theorem read_csv_data_amended (c : CsvContent) :
    (∃ v, read_csv_data c = LoadOutcome.value v) ∧
    (read_csv_data c = LoadOutcome.value none ↔
      (c = CsvContent.missing ∨ c = CsvContent.undecodable ∨ c = CsvContent.malformed ∨
       c = CsvContent.emptyFile ∨ c = CsvContent.table [])) ∧
    (∀ r rows, read_csv_data (CsvContent.table (r :: rows)) =
      LoadOutcome.value (some (r :: rows))) := by
  refine ⟨?_, ?_, ?_⟩
  · cases c with
    | table rows => cases rows <;> exact ⟨_, rfl⟩
    | missing => exact ⟨none, rfl⟩
    | undecodable => exact ⟨none, rfl⟩
    | malformed => exact ⟨none, rfl⟩
    | emptyFile => exact ⟨none, rfl⟩
  · cases c with
    | table rows => cases rows <;> simp [read_csv_data]
    | missing => simp [read_csv_data]
    | undecodable => simp [read_csv_data]
    | malformed => simp [read_csv_data]
    | emptyFile => simp [read_csv_data]
  · intro r rows
    simp [read_csv_data]

/-! ## Request router (`handler.py`) -/

/-- Result of one dispatched operation: a normal return (carrying the dumped
JSON result for the query path; the payload is unused on the other two
paths) or an uncaught exception. -/
inductive OpResult where
  | ok (body : String)
  | raises
deriving DecidableEq

/-- A response envelope as built by the handler. -/
structure Response where
  statusCode : Nat
  headers : List (String × String)
  body : String
deriving DecidableEq

/-- Outcome of a handler invocation: a returned envelope, or an exception
escaping the handler itself. -/
inductive HandlerOutcome where
  | returns (r : Response)
  | raises
deriving DecidableEq

/-- The fixed CORS header set assigned by the handler. -/
def corsHeaders : List (String × String) :=
  [("Access-Control-Allow-Origin", "*"),
   ("Access-Control-Allow-Headers", "Content-Type"),
   ("Access-Control-Allow-Methods", "OPTIONS,POST,GET")]

/-- `json.dumps` of a `message`-only payload. -/
def msgBody (m : String) : String :=
  "\x7b\"message\": \"" ++ m ++ "\"\x7d"

/-- The `except Exception` block of `handler`: it prints the error, then
builds a response that references the local `headers`; when the exception
occurred before `headers` was assigned (the `event[...]` path lookup), that
reference itself raises `NameError`, so the handler raises instead of
returning. -/
def exceptBlock (headersAssigned : Option (List (String × String))) : HandlerOutcome :=
  match headersAssigned with
  | none => HandlerOutcome.raises
  | some h => HandlerOutcome.returns ⟨500, h, msgBody "Internal Server Error"⟩

/-- An inbound event, reduced to what the handler reads:
`event['requestContext']['http']['path']`; `none` models that lookup raising
(any of the keys absent). -/
structure Event where
  path : Option String
deriving DecidableEq

/-- `handler` from `handler.py`, parameterised by the outcomes of the three
dispatched operations. -/
def handler (getCsvOp summarizeOp queryOp : OpResult) (event : Event) : HandlerOutcome :=
  match event.path with
  | none => exceptBlock none
  | some p =>
    let headers := corsHeaders
    if p = "/get_csv" then
      match getCsvOp with
      | OpResult.ok _ => HandlerOutcome.returns ⟨200, headers, msgBody "CSV file saved."⟩
      | OpResult.raises => exceptBlock (some headers)
    else if p = "/summarize" then
      match summarizeOp with
      | OpResult.ok _ => HandlerOutcome.returns ⟨200, headers, msgBody "Summarized"⟩
      | OpResult.raises => exceptBlock (some headers)
    else if p = "/query_kpi_from_csv" then
      match queryOp with
      | OpResult.ok result => HandlerOutcome.returns ⟨200, headers, result⟩
      | OpResult.raises => exceptBlock (some headers)
    else
      HandlerOutcome.returns ⟨404, headers, msgBody "Not Found"⟩

/-- C6: on an event with a path, the handler returns 404 `Not Found` for any
path other than the three routes, returns 500 `Internal Server Error` when
the dispatched operation raises, and every returned envelope — success,
not-found or error — carries the fixed CORS header set. -/
theorem handler_router_correct (g s q : OpResult) :
    (∀ p, p ≠ "/get_csv" → p ≠ "/summarize" → p ≠ "/query_kpi_from_csv" →
      handler g s q ⟨some p⟩ =
        HandlerOutcome.returns ⟨404, corsHeaders, msgBody "Not Found"⟩) ∧
    (handler OpResult.raises s q ⟨some "/get_csv"⟩ =
      HandlerOutcome.returns ⟨500, corsHeaders, msgBody "Internal Server Error"⟩) ∧
    (handler g OpResult.raises q ⟨some "/summarize"⟩ =
      HandlerOutcome.returns ⟨500, corsHeaders, msgBody "Internal Server Error"⟩) ∧
    (handler g s OpResult.raises ⟨some "/query_kpi_from_csv"⟩ =
      HandlerOutcome.returns ⟨500, corsHeaders, msgBody "Internal Server Error"⟩) ∧
    (∀ ev r, handler g s q ev = HandlerOutcome.returns r → r.headers = corsHeaders) := by
  refine ⟨?_, rfl, rfl, rfl, ?_⟩
  · intro p h1 h2 h3
    simp [handler, h1, h2, h3]
  · intro ev r h
    obtain ⟨po⟩ := ev
    cases po with
    | none => simp [handler, exceptBlock] at h
    | some p =>
      by_cases h1 : p = "/get_csv"
      · subst h1
        cases g with
        | ok b =>
          simp only [handler, if_pos rfl] at h
          injection h with h2
          rw [← h2]
        | raises =>
          simp only [handler, if_pos rfl, exceptBlock] at h
          injection h with h2
          rw [← h2]
      · by_cases h2 : p = "/summarize"
        · subst h2
          cases s with
          | ok b =>
            simp only [handler, if_neg h1, if_pos rfl] at h
            injection h with h3
            rw [← h3]
          | raises =>
            simp only [handler, if_neg h1, if_pos rfl, exceptBlock] at h
            injection h with h3
            rw [← h3]
        · by_cases h3 : p = "/query_kpi_from_csv"
          · subst h3
            cases q with
            | ok b =>
              simp only [handler, if_neg h1, if_neg h2, if_pos rfl] at h
              injection h with h4
              rw [← h4]
            | raises =>
              simp only [handler, if_neg h1, if_neg h2, if_pos rfl,
                exceptBlock] at h
              injection h with h4
              rw [← h4]
          · simp only [handler, if_neg h1, if_neg h2, if_neg h3] at h
            injection h with h4
            rw [← h4]

/-- Closed witness for the C6 theorem: an unknown path yields the 404
envelope. -/
theorem handler_router_correct_witness :
    ("/unknown_path" ≠ "/get_csv") ∧
    handler (OpResult.ok "") (OpResult.ok "") (OpResult.ok "") ⟨some "/unknown_path"⟩ =
      HandlerOutcome.returns ⟨404, corsHeaders, msgBody "Not Found"⟩ :=
  ⟨by decide,
   (handler_router_correct (OpResult.ok "") (OpResult.ok "") (OpResult.ok "")).1
     "/unknown_path" (by decide) (by decide) (by decide)⟩

/-- C10: when the path lookup on the inbound event fails, the `except` block
references `headers` before it was ever assigned, so the handler raises
instead of returning any envelope — the 500 response included. -/
theorem handler_raises_on_missing_path (g s q : OpResult) :
    handler g s q ⟨none⟩ = HandlerOutcome.raises := rfl

/-! ## Persisted column set (`step1_getcsv.py`, `main` and `save_to_csv`) -/

/-- Keys of the per-team dict built by the fetcher, in insertion order:
`year`, `startDate`, `endDate`, `teamName`, then `STATS_COLUMNS`; these
become the dataframe's column order. -/
def fetchColumns : List String :=
  ["year", "startDate", "endDate", "teamName"] ++ STATS_COLUMNS

/-- Pandas column assignment `df[c] = ...`: overwrites in place when the
column exists, otherwise appends it as the last column. -/
def setColumn (cols : List String) (c : String) : List String :=
  if cols.contains c then cols else cols ++ [c]

/-- Effect of `judge_incremental` on its caller's dataframe columns: its very
first statement executes `df['composite_key'] = ...` on the shared object,
before any branch can return. -/
def judge_incremental_columns (cols : List String) : List String :=
  setColumn cols "composite_key"

/-- `df.to_csv(index=False)` header line for a column list. -/
def csvHeader (cols : List String) : String :=
  String.intercalate "," cols

/-- Spec-side: the persisted dataset's header row exactly as the spec states
it, nine columns and nothing else. -/
def specHeader : String :=
  "year,startDate,endDate,teamName,won,draw,lost,goalsFor,goalsAgainst"

/-- C8: `main` saves the dataframe only after `judge_incremental` has run on
it, and `judge_incremental` appends the `composite_key` helper column to that
shared dataframe before any branch returns, so the persisted header row
carries a tenth `composite_key` column and differs from the nine-column
header row the spec states. -/
theorem saved_header_has_extra_column :
    csvHeader (judge_incremental_columns fetchColumns) = specHeader ++ ",composite_key" ∧
    (csvHeader (judge_incremental_columns fetchColumns) == specHeader) = false := by
  constructor <;> decide
